import Mathlib

/-!
Verification of the note-mapping logic of the Musical-Keyboard repository
(`src/lib/musicUtils.ts`), shallowly embedded in Lean 4.

Modelling conventions:
* JS numbers used as times, durations, velocities and random draws are
  modelled as `ℚ`; character codes and octaves are `Nat`.
* The module-level mutable variables (`currentScale`, `currentProgression`,
  `progressionIndex`, `lastNotesPlayed`, `notesInQueue`) form the
  `MusicalContext` structure, threaded explicitly through the functions.
* The Tone.js objects (`synth`, `reverb`, `delay`) are opaque collaborators;
  only their presence (initialisation state) and the numeric settings written
  to them are modelled, in `EngineState`.
* Calls to `synth.triggerAttackRelease` are collected as a list of emitted
  `Play` requests (batch chord plays carry several note names).
* `Math.random()` draws and `Tone.now()` timestamps are passed in as
  explicit parameters, in the order the source draws them.
-/

/-- The fixed scale registry entry (`SCALES.chromatic`), also used by
`getChordNotes` as the 12-tone chromatic table.  The source writes it as one
12-element literal; it is assembled from slices here. -/
def chromaticScale : List String :=
  ["C", "C#", "D", "D#"] ++ ["E", "F", "F#", "G"] ++ ["G#", "A", "A#", "B"]

/-- The fixed registry of 5 scales (`SCALES` in `musicUtils.ts`). -/
def SCALES : List (String × List String) :=
  [("major", ["C", "D", "E", "F", "G", "A", "B"]),
   ("minor", ["C", "D", "Eb", "F", "G", "Ab", "Bb"]),
   ("pentatonic", ["C", "D", "E", "G", "A"]),
   ("blues", ["C", "Eb", "F", "F#", "G", "Bb"]),
   ("chromatic", chromaticScale)]

/-- `SCALES[name]`: lookup of a scale by name in the registry. -/
def lookupScale (name : String) : Option (List String) :=
  (SCALES.find? (fun p => p.1 == name)).map (fun p => p.2)

/-- The scale the module-level `currentScale` name resolves to.  The context
invariant keeps `currentScale` a registry key, so the `[]` default is never
reached on the paths the theorems speak about. -/
def getScale (name : String) : List String :=
  (lookupScale name).getD []

/-- `OCTAVE_RANGES` table of `musicUtils.ts`. -/
def lettersMin : Nat := 3
/-- `OCTAVE_RANGES.letters.max`. -/
def lettersMax : Nat := 5
/-- `OCTAVE_RANGES.numbers.min`. -/
def numbersMin : Nat := 2
/-- `OCTAVE_RANGES.numbers.max`. -/
def numbersMax : Nat := 4
/-- `OCTAVE_RANGES.special.min`. -/
def specialMin : Nat := 1
/-- `OCTAVE_RANGES.special.max`. -/
def specialMax : Nat := 3

/-- `CHORD_PROGRESSIONS` registry of `musicUtils.ts`. -/
def CHORD_PROGRESSIONS : List (List String) :=
  [["C", "G", "Am", "F"],
   ["Am", "F", "C", "G"],
   ["C", "Am", "F", "G"],
   ["C", "F", "G"],
   ["Cm", "G", "Cm"]]

/-- Pitch class and octave computed by `keyToNote` before the final string
interpolation.  Mirrors the three branches of the source: the `/[A-Z]/i`
test is `Char.isAlpha` (ASCII letters), `/[0-9]/` is `Char.isDigit`,
`charCodeAt(0)` is `Char.toNat`, `parseInt(key)` on a digit is
`key.toNat - 48`, and the clamp `if (octave > max) octave = max` is kept in
that exact shape. -/
def keyToNoteCore (scale : List String) (key : Char) : String × Nat :=
  if key.isAlpha then
    let letterIndex := key.toUpper.toNat - 65
    let noteIndex := letterIndex % scale.length
    let octave := lettersMin + letterIndex / scale.length
    let octave := if octave > lettersMax then lettersMax else octave
    (scale.getD noteIndex "", octave)
  else if key.isDigit then
    let digit := key.toNat - 48
    let numIndex := digit % scale.length
    let octave := numbersMin + digit / scale.length
    let octave := if octave > numbersMax then numbersMax else octave
    (scale.getD numIndex "", octave)
  else
    let charCode := key.toNat
    let noteIndex := charCode % scale.length
    let octave := specialMin + (charCode % 20) / 10
    let octave := if octave > specialMax then specialMax else octave
    (scale.getD noteIndex "", octave)

/-- `keyToNote` of `musicUtils.ts`: the scale entry at the computed index
concatenated with the computed octave (the template literal
`${scale[noteIndex]}${octave}`).  The source reads the scale through the
module-level `currentScale`; the resolved scale is a parameter here. -/
def keyToNote (scale : List String) (key : Char) : String :=
  let p := keyToNoteCore scale key
  p.1 ++ toString p.2

/-- Modelled from the spec's words (spec §4.1 steps 1-5 / claim C1):
classify the character, compute the index by the class's modulo rule,
compute the octave as the class's base minimum plus the class's offset,
clamped to the class maximum, and return `scale[index] + octave`. -/
def keyToNoteSpec (scale : List String) (key : Char) : String :=
  if key.isAlpha then
    let letterPos := key.toUpper.toNat - 65
    scale.getD (letterPos % scale.length) "" ++
      toString (min (lettersMin + letterPos / scale.length) lettersMax)
  else if key.isDigit then
    let digit := key.toNat - 48
    scale.getD (digit % scale.length) "" ++
      toString (min (numbersMin + digit / scale.length) numbersMax)
  else
    let code := key.toNat
    scale.getD (code % scale.length) "" ++
      toString (min (specialMin + (code % 20) / 10) specialMax)

/-- The source's clamp idiom agrees with taking a minimum. -/
theorem clamp_eq_min (x m : Nat) : (if x > m then m else x) = min x m := by
  split <;> omega

/-- C1: `keyToNote` computes exactly the classification / index / octave
scheme the spec describes, for every character and every scale. -/
theorem keyToNote_matches_spec (scale : List String) (key : Char) :
    keyToNote scale key = keyToNoteSpec scale key := by
  unfold keyToNote keyToNoteCore keyToNoteSpec
  simp only [clamp_eq_min]
  rcases h : key.isAlpha with _ | _ <;>
    rcases h2 : key.isDigit with _ | _ <;>
    simp [h, h2]

/-- C2: for every scale name in the registry and every letter key, the octave
computed by `keyToNote` never exceeds the letter-class maximum octave, 5
(`keyToNote` renders exactly that octave after the pitch class). -/
theorem keyToNote_letter_octave_le_five (name : String) (scale : List String)
    (hs : lookupScale name = some scale) (key : Char) (hk : key.isAlpha = true) :
    (keyToNoteCore scale key).2 ≤ 5 ∧
    keyToNote scale key
      = (keyToNoteCore scale key).1 ++ toString (keyToNoteCore scale key).2 := by
  refine ⟨?_, rfl⟩
  unfold keyToNoteCore
  simp only [hk, if_true, lettersMin, lettersMax]
  split <;> omega

/-- Witness for C2 at scale "pentatonic" and key 'A'. -/
theorem keyToNote_letter_octave_le_five_witness :
    (keyToNoteCore ["C", "D", "E", "G", "A"] 'A').2 ≤ 5 ∧
    keyToNote ["C", "D", "E", "G", "A"] 'A'
      = (keyToNoteCore ["C", "D", "E", "G", "A"] 'A').1
          ++ toString (keyToNoteCore ["C", "D", "E", "G", "A"] 'A').2 :=
  keyToNote_letter_octave_le_five "pentatonic" _ rfl 'A' rfl

/-- The module-level mutable musical context of `musicUtils.ts`
(`currentScale`, `currentOctave`, `currentProgression`, `progressionIndex`,
`lastNotesPlayed`, `notesInQueue`).  Queue timestamps are `Tone.now()`
values, modelled as `ℚ`. -/
structure MusicalContext where
  currentScale : String
  currentOctave : Nat
  currentProgression : Nat
  progressionIndex : Nat
  lastNotesPlayed : List String
  notesInQueue : List (String × ℚ)
deriving DecidableEq

/-- One `synth.triggerAttackRelease(notes, duration, Tone.now(), velocity)`
request.  Single-note plays carry a one-element list; background chords a
batch of note names. -/
structure Play where
  notes : List String
  duration : ℚ
  velocity : ℚ
deriving DecidableEq

/-- `parseInt(s)` as applied by `generateHarmony` to `lastNote.slice(-1)`:
the numeric value of a one-digit string.  The non-digit (`NaN`) case is
modelled as `0` and only ever reached outside the hypotheses of the
theorems below. -/
def parseOctaveDigit (s : String) : Nat :=
  match s.toList with
  | [c] => if c.isDigit then c.toNat - 48 else 0
  | _ => 0

/-- `generateHarmony` of `musicUtils.ts`.  `hasSynth` is the `!synth` guard;
the returned list holds the two `triggerAttackRelease` requests issued from
the `setTimeout` callbacks (their note names and octaves are computed
synchronously before scheduling).  The function mutates no context. -/
def generateHarmony (hasSynth : Bool) (ctx : MusicalContext) : List Play :=
  if !hasSynth || ctx.notesInQueue.length < 2 then []
  else
    let scale := getScale ctx.currentScale
    match ctx.lastNotesPlayed.getLast? with
    | none => []
    | some lastNote =>
      if lastNote.isEmpty then []
      else
        let noteName := lastNote.dropRight 1
        let octave := parseOctaveDigit (lastNote.takeRight 1)
        match scale.findIdx? (fun x => x == noteName) with
        | none => []
        | some noteIndex =>
          let thirdIndex := (noteIndex + 2) % scale.length
          let fifthIndex := (noteIndex + 4) % scale.length
          let thirdOctave := if thirdIndex < noteIndex then octave + 1 else octave
          let fifthOctave := if fifthIndex < noteIndex then octave + 1 else octave
          [⟨[scale.getD thirdIndex "" ++ toString thirdOctave], 4/10, 4/10⟩,
           ⟨[scale.getD fifthIndex "" ++ toString fifthOctave], 3/10, 3/10⟩]

/-- `getChordNotes` of `musicUtils.ts`: `chordName.charAt(0)` is
`String.take 1`, `chordName.includes("m")` for the one-character needle is membership of
`'m'` among the characters, and `indexOf` on the chromatic table is
`List.findIdx?`. -/
def getChordNotes (chordName : String) : List String :=
  let root := chordName.take 1
  let isMinor := chordName.toList.contains 'm'
  let baseOctave : Nat := 2
  let third := if isMinor then 3 else 4
  match chromaticScale.findIdx? (fun x => x == root) with
  | none => [root ++ toString baseOctave]
  | some rootIndex =>
    let thirdNote := chromaticScale.getD ((rootIndex + third) % 12) ""
    let fifthNote := chromaticScale.getD ((rootIndex + 7) % 12) ""
    [root ++ toString baseOctave,
     thirdNote ++ toString baseOctave,
     fifthNote ++ toString baseOctave]

/-- `progressChordSequence` of `musicUtils.ts`.  `r` is the `Math.random()`
draw; the function is a no-op unless `r ≤ 0.2`.  Otherwise it reads the
chord under the cursor, advances the cursor modulo the progression length,
and issues one soft batch play (duration 1.5, velocity 0.1). -/
def progressChordSequence (hasSynth : Bool) (ctx : MusicalContext) (r : ℚ) :
    MusicalContext × List Play :=
  if !hasSynth then (ctx, [])
  else if r > 2/10 then (ctx, [])
  else
    let progression := CHORD_PROGRESSIONS.getD ctx.currentProgression []
    let chord := progression.getD ctx.progressionIndex ""
    ({ ctx with progressionIndex := (ctx.progressionIndex + 1) % progression.length },
     [⟨getChordNotes chord, 3/2, 1/10⟩])

/-- `[...lastNotesPlayed, note].slice(-8)`: keep the last 8 entries. -/
def keepLast8 (l : List String) : List String :=
  l.drop (l.length - 8)

/-- The context mutation performed by a successful `playNote`: append the
note to the 8-bounded history, push `(note, now1)` onto the queue
(`now1 = Tone.now()` at the push), and prune entries with
`now2 - time >= 2` (`now2 = Tone.now()` at the filter). -/
def insertAndPrune (ctx : MusicalContext) (note : String) (now1 now2 : ℚ) :
    MusicalContext :=
  { ctx with
    lastNotesPlayed := keepLast8 (ctx.lastNotesPlayed ++ [note]),
    notesInQueue := (ctx.notesInQueue ++ [(note, now1)]).filter
      (fun n => now2 - n.2 < 2) }

/-- Result of one `playNote` call: the new context, the play requests issued
(in source order: main note, harmony notes, background chord), and whether
lazy initialisation of the audio engine was requested. -/
structure PlayResult where
  ctx : MusicalContext
  plays : List Play
  initRequested : Bool
deriving DecidableEq

/-- `playNote` of `musicUtils.ts`.  When `synth` is absent it requests lazy
initialisation and drops the note.  Otherwise it maps the key to a note,
updates history and queue, plays the note, runs `generateHarmony` when the
queue holds more than one note and the draw `r1` exceeds 0.6, and then runs
`progressChordSequence` with draw `r2`. -/
def playNote (hasSynth : Bool) (ctx : MusicalContext) (key : Char)
    (duration velocity : ℚ) (now1 now2 : ℚ) (r1 r2 : ℚ) : PlayResult :=
  if !hasSynth then ⟨ctx, [], true⟩
  else
    let note := keyToNote (getScale ctx.currentScale) key
    let ctx1 := insertAndPrune ctx note now1 now2
    let harmonyPlays :=
      if 1 < ctx1.notesInQueue.length ∧ r1 > 6/10
      then generateHarmony true ctx1 else []
    let step := progressChordSequence true ctx1 r2
    ⟨step.1, ⟨[note], duration, velocity⟩ :: (harmonyPlays ++ step.2), false⟩

/-- `updateMusicSettings` input record (all fields optional). -/
structure Settings where
  volume : Option ℚ
  scale : Option String
  reverb : Option ℚ
  delay : Option ℚ
deriving DecidableEq

/-- The Tone.js objects as far as the claims see them: which of
`synth`/`reverb`/`delay` are non-null, and the numeric settings last written
to them.  `volumeGain` records the gain passed to `Tone.gainToDb`; no claim
depends on the dB value itself. -/
structure EngineState where
  hasSynth : Bool
  hasReverb : Bool
  hasDelay : Bool
  volumeGain : ℚ
  reverbWet : ℚ
  delayWet : ℚ
deriving DecidableEq

/-- The property names an object literal such as `SCALES` inherits from
`Object.prototype`, every one of which is truthy under a bracket access
(`"constructor"` through `"valueOf"` are functions; `"__proto__"` is the
prototype object itself).  `SCALES` declares no such own keys, so these are
exactly the non-registry names for which `SCALES[name]` is truthy. -/
def objectPrototypeKeys : List String :=
  ["constructor", "hasOwnProperty", "isPrototypeOf", "propertyIsEnumerable",
   "toLocaleString", "toString", "valueOf", "__defineGetter__",
   "__defineSetter__", "__lookupGetter__", "__lookupSetter__", "__proto__"]

/-- Truthiness of the JS expression `SCALES[name]`: true for the 5 registry
keys (whose values are non-empty arrays) and also for the properties the
object literal inherits from `Object.prototype` — the `as keyof typeof
SCALES` cast erases at runtime and does not restrict the lookup. -/
def scalesTruthy (name : String) : Bool :=
  (lookupScale name).isSome || objectPrototypeKeys.contains name

/-- `updateMusicSettings` of `musicUtils.ts`.  A bare no-op when any of
`synth`/`reverb`/`delay` is null.  Otherwise applies each present setting;
the scale name is committed whenever `SCALES[name]` is truthy — registry
keys, but also `Object.prototype` names (see `scalesTruthy`).  `r` is the
final `Math.random()` draw; when it exceeds 0.7 the active progression is
re-chosen as `Math.floor(rp * CHORD_PROGRESSIONS.length)` from a second
draw `rp` and the cursor resets to 0. -/
def updateMusicSettings (eng : EngineState) (ctx : MusicalContext)
    (s : Settings) (r rp : ℚ) : EngineState × MusicalContext :=
  if !(eng.hasSynth && eng.hasReverb && eng.hasDelay) then (eng, ctx)
  else
    let eng := match s.volume with
      | some v => { eng with volumeGain := v }
      | none => eng
    let ctx := match s.scale with
      | some nm => if scalesTruthy nm then { ctx with currentScale := nm } else ctx
      | none => ctx
    let eng := match s.reverb with
      | some v => { eng with reverbWet := v }
      | none => eng
    let eng := match s.delay with
      | some v => { eng with delayWet := v }
      | none => eng
    if r > 7/10 then
      (eng, { ctx with
                currentProgression := (rp * CHORD_PROGRESSIONS.length).floor.toNat,
                progressionIndex := 0 })
    else (eng, ctx)

/-- Concrete context used by witnesses: fresh module state with the default
"pentatonic" scale. -/
def ctxPenta : MusicalContext :=
  ⟨"pentatonic", 4, 0, 0, [], []⟩

/-- Concrete context used by witnesses: last note "E4", two queued notes. -/
def ctxHarmony : MusicalContext :=
  ⟨"pentatonic", 4, 0, 0, ["E4"], [("E4", 0), ("C4", 0)]⟩

/-- Fully initialised engine (all three Tone.js objects present). -/
def engOn : EngineState :=
  ⟨true, true, true, 1/2, 3/10, 2/10⟩

/-- Engine before initialisation (no Tone.js objects). -/
def engOff : EngineState :=
  ⟨false, false, false, 1/2, 3/10, 2/10⟩

/-- C3: when the last played note's pitch class sits at index `i` of the
current scale (and the queue holds at least two notes so harmony runs),
`generateHarmony` emits exactly two notes, at scale indices `(i+2) mod len`
and `(i+4) mod len`, each at the triggering note's octave except raised by
one octave exactly when the reduced index is smaller than `i`. -/
theorem generateHarmony_emits_third_and_fifth
    (ctx : MusicalContext) (lastNote : String) (i : Nat)
    (hq : 2 ≤ ctx.notesInQueue.length)
    (hl : ctx.lastNotesPlayed.getLast? = some lastNote)
    (hne : lastNote.isEmpty = false)
    (hi : (getScale ctx.currentScale).findIdx?
        (fun x => x == lastNote.dropRight 1) = some i) :
    generateHarmony true ctx =
      [⟨[(getScale ctx.currentScale).getD
            ((i + 2) % (getScale ctx.currentScale).length) ""
          ++ toString (if (i + 2) % (getScale ctx.currentScale).length < i
                       then parseOctaveDigit (lastNote.takeRight 1) + 1
                       else parseOctaveDigit (lastNote.takeRight 1))],
         4/10, 4/10⟩,
       ⟨[(getScale ctx.currentScale).getD
            ((i + 4) % (getScale ctx.currentScale).length) ""
          ++ toString (if (i + 4) % (getScale ctx.currentScale).length < i
                       then parseOctaveDigit (lastNote.takeRight 1) + 1
                       else parseOctaveDigit (lastNote.takeRight 1))],
         3/10, 3/10⟩] := by
  unfold generateHarmony
  have hq' : ¬ (ctx.notesInQueue.length < 2) := by omega
  simp [hq', hl, hne, hi]

/-- Witness for C3: with scale "pentatonic" and last note "E4" (index 2),
harmony is the third "A4" (index 4, no wrap) and the fifth "D5" (index 1,
wrapped, octave raised). -/
theorem generateHarmony_emits_third_and_fifth_witness :
    generateHarmony true ctxHarmony =
      [⟨["A4"], 4/10, 4/10⟩, ⟨["D5"], 3/10, 3/10⟩] :=
  (generateHarmony_emits_third_and_fifth ctxHarmony "E4" 2
    (by decide) rfl rfl rfl).trans rfl

/-- Modelled from the spec's words (spec §4.3 / claim C5): the triad is the
root, the third at root index plus 3 semitones under a minor marker and
plus 4 otherwise (mod 12), and the perfect fifth at root index plus 7
semitones (mod 12), all at the fixed background octave 2; an unrecognized
root yields the single fallback note of just the root at that octave. -/
def chordNotesSpec (chordName : String) : List String :=
  let root := chordName.take 1
  match chromaticScale.findIdx? (fun x => x == root) with
  | none => [root ++ "2"]
  | some i =>
    let semitones := if chordName.toList.contains 'm' then 3 else 4
    [root ++ "2",
     chromaticScale.getD ((i + semitones) % 12) "" ++ "2",
     chromaticScale.getD ((i + 7) % 12) "" ++ "2"]

/-- C5: `getChordNotes` resolves every chord symbol to exactly the triad the
spec describes when the root letter is in the chromatic table (3 notes at
octave 2), and to exactly the 1-note fallback otherwise. -/
theorem getChordNotes_matches_spec (chordName : String) :
    getChordNotes chordName = chordNotesSpec chordName ∧
    (getChordNotes chordName).length =
      (if (chromaticScale.findIdx? (fun x => x == chordName.take 1)).isSome
       then 3 else 1) := by
  unfold getChordNotes chordNotesSpec
  have h2 : toString (2 : Nat) = "2" := rfl
  rcases h : chromaticScale.findIdx? (fun x => x == chordName.take 1) with _ | i <;>
    simp [h, h2]

/-- C6: whenever the chord-advance branch triggers (`r ≤ 0.2`), the cursor
advances by exactly one position modulo the active progression's length and
the chord under the old cursor is played very softly (velocity 0.1). -/
theorem progressChordSequence_advances (ctx : MusicalContext) (r : ℚ)
    (h : r ≤ 2/10) :
    progressChordSequence true ctx r =
      ({ ctx with progressionIndex :=
           (ctx.progressionIndex + 1)
             % (CHORD_PROGRESSIONS.getD ctx.currentProgression []).length },
       [⟨getChordNotes ((CHORD_PROGRESSIONS.getD ctx.currentProgression []).getD
            ctx.progressionIndex ""), 3/2, 1/10⟩]) := by
  unfold progressChordSequence
  have h' : ¬ (r > 2/10) := not_lt.mpr h
  simp [h']

/-- Witness for C6: the first progression advances its cursor from 0 to 1
and softly plays the C major triad. -/
theorem progressChordSequence_advances_witness :
    progressChordSequence true ctxPenta (2/10) =
      ({ ctxPenta with progressionIndex :=
           (ctxPenta.progressionIndex + 1)
             % (CHORD_PROGRESSIONS.getD ctxPenta.currentProgression []).length },
       [⟨getChordNotes ((CHORD_PROGRESSIONS.getD ctxPenta.currentProgression []).getD
            ctxPenta.progressionIndex ""), 3/2, 1/10⟩]) :=
  progressChordSequence_advances ctxPenta (2/10) (le_refl _)

/-- `progressChordSequence` only ever touches the progression cursor; the
recent-note queue passes through unchanged. -/
theorem progressChordSequence_preserves_queue (b : Bool) (c : MusicalContext)
    (r : ℚ) :
    ((progressChordSequence b c r).1).notesInQueue = c.notesInQueue := by
  unfold progressChordSequence
  split
  · rfl
  · split
    · rfl
    · rfl

/-- C4: `playNote` on an initialised engine emits no harmony notes unless
the queue (after insert and prune) holds more than one note AND the draw
exceeds 0.6: when either condition fails, the result is just the main play
followed by the chord-progression step.  Moreover `generateHarmony` on any
context with fewer than 2 queued notes emits nothing. -/
theorem playNote_harmony_guard
    (ctx : MusicalContext) (key : Char) (d v now1 now2 r1 r2 : ℚ)
    (h : (insertAndPrune ctx (keyToNote (getScale ctx.currentScale) key)
            now1 now2).notesInQueue.length < 2 ∨ r1 ≤ 6/10)
    (c : MusicalContext) (hc : c.notesInQueue.length < 2) :
    playNote true ctx key d v now1 now2 r1 r2 =
      ⟨(progressChordSequence true
          (insertAndPrune ctx (keyToNote (getScale ctx.currentScale) key)
            now1 now2) r2).1,
       ⟨[keyToNote (getScale ctx.currentScale) key], d, v⟩
         :: (progressChordSequence true
              (insertAndPrune ctx (keyToNote (getScale ctx.currentScale) key)
                now1 now2) r2).2,
       false⟩
    ∧ generateHarmony true c = [] := by
  constructor
  · unfold playNote
    have hno : ¬ (1 < (insertAndPrune ctx
        (keyToNote (getScale ctx.currentScale) key) now1 now2).notesInQueue.length
        ∧ r1 > 6/10) := by
      rcases h with h | h
      · intro hcontra
        omega
      · intro hcontra
        exact absurd hcontra.2 (not_lt.mpr h)
    simp [hno]
  · unfold generateHarmony
    simp [hc]

/-- Witness for C4 at a fresh context (empty queue) with the draw exactly at
the 0.6 threshold. -/
theorem playNote_harmony_guard_witness :
    playNote true ctxPenta 'a' (1/2) (7/10) 0 0 (6/10) 1 =
      ⟨(progressChordSequence true
          (insertAndPrune ctxPenta (keyToNote (getScale ctxPenta.currentScale) 'a')
            0 0) 1).1,
       ⟨[keyToNote (getScale ctxPenta.currentScale) 'a'], 1/2, 7/10⟩
         :: (progressChordSequence true
              (insertAndPrune ctxPenta (keyToNote (getScale ctxPenta.currentScale) 'a')
                0 0) 1).2,
       false⟩
    ∧ generateHarmony true ctxPenta = [] :=
  playNote_harmony_guard ctxPenta 'a' (1/2) (7/10) 0 0 (6/10) 1
    (Or.inr (le_refl _)) ctxPenta (by decide)

/-- The recent-note queue after a successful `playNote` is exactly the
insert-and-prune of the old queue (the chord step never touches it). -/
theorem playNote_ctx_queue
    (ctx : MusicalContext) (key : Char) (d v now1 now2 r1 r2 : ℚ) :
    (playNote true ctx key d v now1 now2 r1 r2).ctx.notesInQueue
      = (insertAndPrune ctx (keyToNote (getScale ctx.currentScale) key)
          now1 now2).notesInQueue := by
  unfold playNote
  simp [progressChordSequence_preserves_queue]

/-- C7: after every successful `playNote` call (with the clock monotone
between the push and the prune), every entry retained in the recent-note
queue is within 2 seconds of the latest insert's timestamp `now1`. -/
theorem playNote_queue_within_two_seconds
    (ctx : MusicalContext) (key : Char) (d v now1 now2 r1 r2 : ℚ)
    (h : now1 ≤ now2) :
    ((playNote true ctx key d v now1 now2 r1 r2).ctx.notesInQueue.all
      (fun e => decide (now1 - e.2 < 2))) = true := by
  rw [List.all_eq_true]
  intro e he
  rw [playNote_ctx_queue] at he
  unfold insertAndPrune at he
  simp only [List.mem_filter, decide_eq_true_eq] at he
  simp only [decide_eq_true_eq]
  have := he.2
  linarith

/-- Witness for C7: one key press on a fresh context at time 0. -/
theorem playNote_queue_within_two_seconds_witness :
    ((playNote true ctxPenta 'a' (1/2) (7/10) 0 0 (6/10) 1).ctx.notesInQueue.all
      (fun e => decide ((0 : ℚ) - e.2 < 2))) = true :=
  playNote_queue_within_two_seconds ctxPenta 'a' (1/2) (7/10) 0 0 (6/10) 1
    (le_refl 0)

/-- C8: when the synth is not initialised, `playNote` requests lazy
initialisation, drops the triggering note (no play request issued), and
leaves the musical context (history, queue, progression state) unchanged. -/
theorem playNote_uninitialized_drops_note
    (ctx : MusicalContext) (key : Char) (d v now1 now2 r1 r2 : ℚ) :
    playNote false ctx key d v now1 now2 r1 r2 = ⟨ctx, [], true⟩ :=
  rfl

/-- On an initialised engine, `updateMusicSettings` commits a requested
scale name exactly when the JS lookup `SCALES[name]` is truthy — which is
weaker than registry membership (see `scalesTruthy`). -/
theorem updateMusicSettings_scale_truthiness
    (eng : EngineState) (ctx : MusicalContext) (s : Settings) (name : String)
    (r rp : ℚ)
    (hinit : eng.hasSynth = true ∧ eng.hasReverb = true ∧ eng.hasDelay = true)
    (hscale : s.scale = some name) :
    ((updateMusicSettings eng ctx s r rp).2).currentScale
      = (if scalesTruthy name then name else ctx.currentScale) := by
  obtain ⟨h1, h2, h3⟩ := hinit
  obtain ⟨sv, ssc, sr, sd⟩ := s
  dsimp only at hscale
  subst hscale
  unfold updateMusicSettings
  simp only [h1, h2, h3, Bool.and_self, Bool.not_true, Bool.false_eq_true,
    if_false]
  cases sv <;> cases sr <;> cases sd <;> dsimp only <;> split_ifs <;> rfl

/-- C9: the claim — and spec §4.4/§7 — say an unknown scale name is ignored
and the scale changes only for registry names, but the code's truthiness
check `SCALES[settings.scale]` also finds properties inherited from
`Object.prototype`: the non-registry name "constructor" is committed to
`currentScale` on an initialised engine.  The claim is the evident intent
(the source even casts the name to `keyof typeof SCALES`); the code slips. -/
theorem updateMusicSettings_commits_inherited_scale_name :
    lookupScale "constructor" = none ∧
    ((updateMusicSettings engOn ctxPenta ⟨none, some "constructor", none, none⟩
        0 0).2).currentScale = "constructor" :=
  ⟨rfl,
   (updateMusicSettings_scale_truthiness engOn ctxPenta
      ⟨none, some "constructor", none, none⟩ "constructor" 0 0
      ⟨rfl, rfl, rfl⟩ rfl).trans rfl⟩

/-- C10: when any of `synth`/`reverb`/`delay` is absent, `updateMusicSettings`
is a complete no-op: the engine settings and the whole musical context are
returned unchanged, whatever was requested. -/
theorem updateMusicSettings_noop_when_uninitialized
    (eng : EngineState) (ctx : MusicalContext) (s : Settings) (r rp : ℚ)
    (h : eng.hasSynth = false ∨ eng.hasReverb = false ∨ eng.hasDelay = false) :
    updateMusicSettings eng ctx s r rp = (eng, ctx) := by
  unfold updateMusicSettings
  have hg : (eng.hasSynth && eng.hasReverb && eng.hasDelay) = false := by
    rcases h with h | h | h <;> simp [h]
  simp [hg]

/-- Witness for C10: a valid scale request against an uninitialised engine
changes nothing. -/
theorem updateMusicSettings_noop_when_uninitialized_witness :
    updateMusicSettings engOff ctxPenta ⟨some (8/10), some "major", none, none⟩
        0 0 = (engOff, ctxPenta) :=
  updateMusicSettings_noop_when_uninitialized engOff ctxPenta
    ⟨some (8/10), some "major", none, none⟩ 0 0 (Or.inl rfl)
